import Mathlib

/-!
Verification of the PDF batch-compression utility (src/main.py).

Paths are modeled as lists of name components.  The directory tree under
the input root is an inductive `Entry` tree.  The outside world reachable
from `compress_pdf` (directory creation, `os.path.getsize`, the external
Ghostscript invocation) is an explicit environment record `FSEnv`; an
exception escaping a task is `Except.error ()`.
-/

namespace PdfComp

/-- Filesystem paths, modeled as lists of name components. -/
abbrev FsPath := List String

/-- A directory-tree entry: a regular file with a byte size, or a
directory with a list of children. -/
inductive Entry where
  | file (name : String) (size : Nat)
  | dir (name : String) (children : List Entry)

/-- Names of the regular files directly contained in a list of entries:
the `files` component of one `os.walk` triple. -/
def filesOf : List Entry → List String
  | [] => []
  | Entry.file n _ :: es => n :: filesOf es
  | Entry.dir _ _ :: es => filesOf es

/-- The `(dirpath, filenames)` triples that `os.walk` yields for the
subdirectories found among the children `cs` of the directory at `path`
(top-down: the triple of each subdirectory comes before the triples of its
descendants). -/
def walkList (path : FsPath) : List Entry → List (FsPath × List String)
  | [] => []
  | Entry.file _ _ :: es => walkList path es
  | Entry.dir n cs :: es =>
      (path ++ [n], filesOf cs) :: (walkList (path ++ [n]) cs ++ walkList path es)
termination_by es => sizeOf es
decreasing_by all_goals simp_wf <;> omega

/-- `os.walk(root_dir)`: the triple for the root itself, then the triples
for every descendant directory. -/
def os_walk (root : FsPath) (cs : List Entry) : List (FsPath × List String) :=
  (root, filesOf cs) :: walkList root cs

/-- The filter `file.lower().endswith(".pdf")` used by `find_all_pdfs`,
expressed on the underlying character list: lowercase every character,
then test for the suffix `".pdf"`. -/
def pdfName (f : String) : Bool :=
  List.isSuffixOf ".pdf".data (f.data.map Char.toLower)

/-- The body of the `find_all_pdfs` comprehension: for every `os.walk`
triple, every file name passing the `.pdf` filter, joined onto the
dirpath of that triple. -/
def joinTriples (ws : List (FsPath × List String)) : List FsPath :=
  ws.flatMap (fun rf => (rf.2.filter pdfName).map (fun f => rf.1 ++ [f]))

/-- `find_all_pdfs` (src/main.py:74-77). -/
def find_all_pdfs (root : FsPath) (cs : List Entry) : List FsPath :=
  joinTriples (os_walk root cs)

/-- Spec-side definition, following the wording of the spec for claim C3: the
relative paths of all regular files, at any depth, beneath a directory
whose children are `cs`. -/
def specRegularFiles : List Entry → List FsPath
  | [] => []
  | Entry.file n _ :: es => [n] :: specRegularFiles es
  | Entry.dir n cs :: es =>
      (specRegularFiles cs).map (fun p => n :: p) ++ specRegularFiles es
termination_by es => sizeOf es
decreasing_by all_goals simp_wf <;> omega

/-- Whether the final component of a relative path (the file name) passes the
case-insensitive `.pdf` test. -/
def lastPdf (rel : FsPath) : Bool :=
  match rel.getLast? with
  | some f => pdfName f
  | none => false

/-- The `Stats` accumulator (src/main.py:19-25).  In the Python source it
is a set of class-level attributes, i.e. process-wide mutable state; here
it is threaded explicitly through `process_all`. -/
structure Stats where
  total : Nat
  success : Nat
  failed : Nat
  errors : List FsPath
  original_size : Nat
  compressed_size : Nat
deriving Repr, DecidableEq

/-- The initial class-level values of `Stats` (src/main.py:20-25). -/
def initStats : Stats :=
  { total := 0, success := 0, failed := 0, errors := [],
    original_size := 0, compressed_size := 0 }

/-- Joining path components into the display string `str(path)`. -/
def pathStr (p : FsPath) : String := String.intercalate "/" p

/-- The Ghostscript command list built by `compress_pdf`
(src/main.py:54-64). -/
def gs_command (quality out_str in_str : String) : List String :=
  ["gswin64c", "-sDEVICE=pdfwrite", "-dCompatibilityLevel=1.4",
   "-dPDFSETTINGS=" ++ quality, "-dNOPAUSE", "-dQUIET", "-dBATCH",
   "-sOutputFile=" ++ out_str, in_str]

/-- The outside world as seen by one run of `compress_pdf`:
`mkdirOk d` is whether `Path(d).mkdir(parents=True, exist_ok=True)`
returns normally; `getsize p` is `os.path.getsize(p)` (`none` models an
`OSError`: missing file or I/O error); `run cmd` is whether
`subprocess.run(cmd, check=True)` returns normally (exit status zero and
no exception). -/
structure FSEnv where
  mkdirOk : FsPath → Bool
  getsize : FsPath → Option Nat
  run : List String → Bool

/-- One task outcome as returned by `compress_pdf`:
`(success, original_size, compressed_size, input_path)`. -/
abbrev TaskResult := Bool × Nat × Nat × FsPath

/-- `compress_pdf` (src/main.py:51-72).  The `mkdir` call on the
parent directory of the output file happens before the `try` block, so its exception escapes
(`Except.error ()`); every exception inside the `try` block — input size
read, the subprocess call, output size read — is caught and converted to
the failed result `(false, 0, 0, input_path)`. -/
def compress_pdf (e : FSEnv) (input_path output_path : FsPath)
    (quality : String) : Except Unit TaskResult :=
  if e.mkdirOk output_path.dropLast then
    Except.ok
      (match e.getsize input_path with
       | none => (false, 0, 0, input_path)
       | some original_size =>
         if e.run (gs_command quality (pathStr output_path) (pathStr input_path)) then
           match e.getsize output_path with
           | none => (false, 0, 0, input_path)
           | some compressed_size =>
             (true, original_size, compressed_size, input_path)
         else (false, 0, 0, input_path))
  else Except.error ()

/-- `Path.relative_to` (src/main.py:86) on component lists: strip the
root components if they lead the path, otherwise raise (`none`). -/
def relative_to (p root : FsPath) : Option FsPath :=
  if root.isPrefixOf p then some (p.drop root.length) else none

/-- A task: `(input_file, output_file)` as appended to `tasks`
(src/main.py:84-88). -/
abbrev Task := FsPath × FsPath

/-- The task-building loop of `process_all` (src/main.py:84-88): each
input file is mapped to `output_dir / input_file.relative_to(input_dir)`;
a `relative_to` failure would raise out of `process_all`. -/
def mkTasks (input_dir output_dir : FsPath) : List FsPath → Except Unit (List Task)
  | [] => Except.ok []
  | f :: fs =>
    match relative_to f input_dir with
    | none => Except.error ()
    | some rel => do
        let ts ← mkTasks input_dir output_dir fs
        Except.ok ((f, output_dir ++ rel) :: ts)

/-- One iteration of the aggregation loop (src/main.py:95-103):
`future.result()` re-raises any exception the task raised; a successful
result increments `success` and both size sums, a failed one increments
`failed` and appends the input path to `errors`. -/
def aggStep (e : FSEnv) (quality : String) (s : Stats) (t : Task) :
    Except Unit Stats := do
  let r ← compress_pdf e t.1 t.2 quality
  match r with
  | (true, orig, comp, _) =>
      Except.ok { s with success := s.success + 1,
                         original_size := s.original_size + orig,
                         compressed_size := s.compressed_size + comp }
  | (false, _, _, path) =>
      Except.ok { s with failed := s.failed + 1,
                         errors := s.errors ++ [path] }

/-- The aggregation loop over completed futures (src/main.py:95-103). -/
def aggregate (e : FSEnv) (quality : String) : Stats → List Task → Except Unit Stats
  | s, [] => Except.ok s
  | s, t :: ts => do
      let s' ← aggStep e quality s t
      aggregate e quality s' ts

/-- `process_all` (src/main.py:79-103), statistics part.  `s0` is the
value of the class-level `Stats` attributes on entry; `reorder` models the
nondeterministic completion order delivered by `as_completed` (the
executor hands back some permutation of the submitted tasks).  Only
`total` is overwritten; the remaining fields continue accumulating on top
of `s0`. -/
def process_all (s0 : Stats) (e : FSEnv) (reorder : List Task → List Task)
    (input_dir output_dir : FsPath) (tree : List Entry) (quality : String) :
    Except Unit Stats := do
  let pdf_files := find_all_pdfs input_dir tree
  let s1 := { s0 with total := pdf_files.length }
  let tasks ← mkTasks input_dir output_dir pdf_files
  aggregate e quality s1 (reorder tasks)

/-- The guarded percentage computation (src/main.py:112):
`(saved / original_size) * 100 if original_size else 0`, with real
division modeled over `ℚ`. -/
def savingsPct (s : Stats) : ℚ :=
  if s.original_size ≠ 0 then
    (((s.original_size : ℚ) - (s.compressed_size : ℚ)) / (s.original_size : ℚ)) * 100
  else 0

/-- The final summary print-out (src/main.py:105-120) as data: the three
counters always; the size/savings block only when `total > 0` (carrying
`saved` in bytes and the guarded percentage); the failure list only when
`failed > 0`. -/
structure Report where
  total : Nat
  success : Nat
  failed : Nat
  sizesBlock : Option (Int × ℚ)
  failuresBlock : Option (List FsPath)
deriving Repr, DecidableEq

/-- Build the `Report` that the summary section of `process_all` prints
for a given final `Stats`. -/
def mkReport (s : Stats) : Report :=
  { total := s.total, success := s.success, failed := s.failed,
    sizesBlock :=
      if s.total > 0 then
        some ((s.original_size : Int) - (s.compressed_size : Int), savingsPct s)
      else none,
    failuresBlock := if s.failed > 0 then some s.errors else none }

/-- The Python function `str.strip()` with no arguments, on a character list:
remove whitespace from both ends. -/
def pyStrip (s : List Char) : List Char :=
  ((s.dropWhile Char.isWhitespace).reverse.dropWhile Char.isWhitespace).reverse

/-- `prompt_quality` (src/main.py:35-49) applied to the raw line the user
typed: the line is stripped of surrounding whitespace by `.strip()`, then
looked up in the menu dictionary with default `/ebook`. -/
def prompt_quality (raw : String) : String :=
  let choice := pyStrip raw.data
  if choice = "1".data then "/screen"
  else if choice = "2".data then "/ebook"
  else if choice = "3".data then "/printer"
  else if choice = "4".data then "/prepress"
  else if choice = "5".data then "/default"
  else "/ebook"

/-- The probe command run by `check_ghostscript` (src/main.py:124-125). -/
def gs_probe_command : List String := ["gswin64c", "--version"]

/-- Outcome of a `subprocess.run(..., check=True)` call: normal exit with
captured stdout, `FileNotFoundError`, or `CalledProcessError` with
captured stderr. -/
inductive RunOutcome where
  | ok (stdout : String)
  | notFound
  | failed (stderr : String)

/-- `check_ghostscript` (src/main.py:122-137): run the `--version` probe;
on success report the version line, on `FileNotFoundError` or
`CalledProcessError` call `exit(1)` (modeled as `Except.error ()`). -/
def check_ghostscript (probe : List String → RunOutcome) : Except Unit String :=
  match probe gs_probe_command with
  | RunOutcome.ok out => Except.ok out
  | RunOutcome.notFound => Except.error ()
  | RunOutcome.failed _ => Except.error ()

/-- The `__main__` flow (src/main.py:139-149): probe Ghostscript first
(fatal on failure, before any directory is scanned), read the quality
choice, then run the batch. -/
def main_flow (probe : List String → RunOutcome) (e : FSEnv)
    (reorder : List Task → List Task) (input_root output_root : FsPath)
    (tree : List Entry) (qualityRaw : String) : Except Unit Stats := do
  let _ ← check_ghostscript probe
  let quality := prompt_quality qualityRaw
  process_all initStats e reorder input_root output_root tree quality

/-- Stacking the statistics of one run `d` on top of the pre-existing
class-level state `s0`: `total` is overwritten by the run, every other
field accumulates. -/
def addStats (s0 d : Stats) : Stats :=
  { total := d.total,
    success := s0.success + d.success,
    failed := s0.failed + d.failed,
    errors := s0.errors ++ d.errors,
    original_size := s0.original_size + d.original_size,
    compressed_size := s0.compressed_size + d.compressed_size }

/-! Concrete fixtures used by closed theorems and witnesses -/

/-- The input tree of the concrete scenario in the spec: `a/1.pdf` of 1000
bytes and `b/2.pdf` of 2000 bytes. -/
def treeC : List Entry :=
  [Entry.dir "a" [Entry.file "1.pdf" 1000], Entry.dir "b" [Entry.file "2.pdf" 2000]]

/-- Environment for the concrete scenario: directory creation succeeds,
the tool halves `a/1.pdf` (the only command that exits zero) and fails
for `b/2.pdf`. -/
def envC : FSEnv :=
  { mkdirOk := fun _ => true,
    getsize := fun p =>
      if p = ["in", "a", "1.pdf"] then some 1000
      else if p = ["in", "b", "2.pdf"] then some 2000
      else if p = ["out", "a", "1.pdf"] then some 500
      else none,
    run := fun cmd =>
      cmd = gs_command "/ebook" (pathStr ["out", "a", "1.pdf"]) (pathStr ["in", "a", "1.pdf"]) }

/-- The expected final statistics of the concrete scenario. -/
def statsC : Stats :=
  { total := 2, success := 1, failed := 1, errors := [["in", "b", "2.pdf"]],
    original_size := 1000, compressed_size := 500 }

/-- An environment where creating the output parent directory raises
(e.g. the output root is read-only). -/
def envBadMkdir : FSEnv :=
  { mkdirOk := fun _ => false, getsize := fun _ => none, run := fun _ => false }

/-- A probe environment in which the external tool is absent:
every invocation raises `FileNotFoundError`. -/
def probeNotFound : List String → RunOutcome := fun _ => RunOutcome.notFound

/-- An environment where directory creation succeeds but the tool exits
non-zero on every invocation, with the input sizes readable. -/
def envAllFail : FSEnv :=
  { mkdirOk := fun _ => true,
    getsize := fun p =>
      if p = ["in", "a", "1.pdf"] then some 1000
      else if p = ["in", "b", "2.pdf"] then some 2000
      else none,
    run := fun _ => false }

/-! Helper lemmas for the scanner (claim C3) -/

theorem specRegularFiles_ne_nil : ∀ (cs : List Entry) (rel : FsPath),
    rel ∈ specRegularFiles cs → rel ≠ []
  | [], rel => by simp [specRegularFiles]
  | Entry.file n sz :: es, rel => by
      simp only [specRegularFiles, List.mem_cons]
      rintro (rfl | h)
      · simp
      · exact specRegularFiles_ne_nil es rel h
  | Entry.dir n cs :: es, rel => by
      simp only [specRegularFiles, List.mem_append, List.mem_map]
      rintro (⟨q, _, rfl⟩ | h)
      · simp
      · exact specRegularFiles_ne_nil es rel h
termination_by cs _ => sizeOf cs
decreasing_by all_goals simp_wf

theorem singleton_mem_specRegularFiles : ∀ (cs : List Entry) (f : String),
    [f] ∈ specRegularFiles cs ↔ f ∈ filesOf cs
  | [], f => by simp [specRegularFiles, filesOf]
  | Entry.file n sz :: es, f => by
      simp only [specRegularFiles, filesOf, List.mem_cons, List.cons.injEq, and_true]
      rw [singleton_mem_specRegularFiles es f]
  | Entry.dir n cs :: es, f => by
      simp only [specRegularFiles, filesOf, List.mem_append, List.mem_map]
      rw [singleton_mem_specRegularFiles es f]
      constructor
      · rintro (⟨q, hq, hEq⟩ | h)
        · exact absurd (List.cons.injEq .. ▸ hEq).2 (specRegularFiles_ne_nil cs q hq)
        · exact h
      · intro h
        exact Or.inr h
termination_by cs _ => sizeOf cs
decreasing_by all_goals simp_wf

theorem lastPdf_cons (n : String) (q : FsPath) (h : q ≠ []) :
    lastPdf (n :: q) = lastPdf q := by
  cases q with
  | nil => exact absurd rfl h
  | cons b l => simp [lastPdf, List.getLast?_cons_cons]

theorem joinTriples_append (l₁ l₂ : List (FsPath × List String)) :
    joinTriples (l₁ ++ l₂) = joinTriples l₁ ++ joinTriples l₂ := by
  simp [joinTriples]

theorem mem_joinTriples_walkList : ∀ (path : FsPath) (cs : List Entry) (p : FsPath),
    p ∈ joinTriples (walkList path cs) ↔
      ∃ rel, rel ∈ specRegularFiles cs ∧ 2 ≤ rel.length ∧ lastPdf rel = true ∧
        p = path ++ rel
  | path, [], p => by simp [walkList, specRegularFiles, joinTriples]
  | path, Entry.file n sz :: es, p => by
      rw [walkList, mem_joinTriples_walkList path es p]
      simp only [specRegularFiles, List.mem_cons]
      constructor
      · rintro ⟨rel, h, hl, hp, rfl⟩
        exact ⟨rel, Or.inr h, hl, hp, rfl⟩
      · rintro ⟨rel, (rfl | h), hl, hp, rfl⟩
        · simp at hl
        · exact ⟨rel, h, hl, hp, rfl⟩
  | path, Entry.dir n cs :: es, p => by
      rw [walkList]
      simp only [joinTriples_append, List.mem_append,
        show joinTriples ((path ++ [n], filesOf cs) :: (walkList (path ++ [n]) cs ++ walkList path es)) =
          ((filesOf cs).filter pdfName).map (fun f => (path ++ [n]) ++ [f]) ++
            (joinTriples (walkList (path ++ [n]) cs) ++ joinTriples (walkList path es))
        from by simp [joinTriples]]
      rw [mem_joinTriples_walkList (path ++ [n]) cs p,
          mem_joinTriples_walkList path es p]
      simp only [specRegularFiles, List.mem_append, List.mem_map, List.mem_filter]
      constructor
      · rintro (⟨f, ⟨hf, hpdf⟩, rfl⟩ | ⟨rel, h, hl, hp, rfl⟩ | ⟨rel, h, hl, hp, rfl⟩)
        · refine ⟨n :: [f], Or.inl ⟨[f], ?_, rfl⟩, by simp, ?_, by simp⟩
          · exact (singleton_mem_specRegularFiles cs f).2 hf
          · rw [lastPdf_cons n [f] (by simp)]
            simpa [lastPdf] using hpdf
        · refine ⟨n :: rel, Or.inl ⟨rel, h, rfl⟩, by simp; omega, ?_, by simp⟩
          rw [lastPdf_cons n rel (specRegularFiles_ne_nil cs rel h)]
          exact hp
        · exact ⟨rel, Or.inr h, hl, hp, rfl⟩
      · rintro ⟨rel, (⟨q, hq, rfl⟩ | h), hl, hp, rfl⟩
        · have hq0 : q ≠ [] := specRegularFiles_ne_nil cs q hq
          rw [lastPdf_cons n q hq0] at hp
          match q, hq0 with
          | [f], _ =>
              refine Or.inl ⟨f, ⟨(singleton_mem_specRegularFiles cs f).1 hq, ?_⟩, by simp⟩
              simpa [lastPdf] using hp
          | b :: c :: l, _ =>
              refine Or.inr (Or.inl ⟨b :: c :: l, hq, by simp, hp, by simp⟩)
        · exact Or.inr (Or.inr ⟨rel, h, hl, hp, rfl⟩)
termination_by _ cs _ => sizeOf cs
decreasing_by all_goals simp_wf <;> omega

theorem mem_find_all_pdfs (root : FsPath) (cs : List Entry) (p : FsPath) :
    p ∈ find_all_pdfs root cs ↔
      ∃ rel, rel ∈ specRegularFiles cs ∧ lastPdf rel = true ∧ p = root ++ rel := by
  rw [find_all_pdfs, os_walk,
      show joinTriples ((root, filesOf cs) :: walkList root cs) =
        ((filesOf cs).filter pdfName).map (fun f => root ++ [f]) ++
          joinTriples (walkList root cs)
      from by simp [joinTriples]]
  rw [List.mem_append, mem_joinTriples_walkList root cs p]
  simp only [List.mem_map, List.mem_filter]
  constructor
  · rintro (⟨f, ⟨hf, hpdf⟩, rfl⟩ | ⟨rel, h, _, hp, rfl⟩)
    · exact ⟨[f], (singleton_mem_specRegularFiles cs f).2 hf,
        by simpa [lastPdf] using hpdf, rfl⟩
    · exact ⟨rel, h, hp, rfl⟩
  · rintro ⟨rel, h, hp, rfl⟩
    match rel, specRegularFiles_ne_nil cs rel h with
    | [f], _ =>
        exact Or.inl ⟨f, ⟨(singleton_mem_specRegularFiles cs f).1 h,
          by simpa [lastPdf] using hp⟩, rfl⟩
    | b :: c :: l, _ =>
        exact Or.inr ⟨b :: c :: l, h, by simp, hp, rfl⟩

/-! Helper lemmas for the planner (claim C4) -/

theorem find_all_pdfs_under_root (root : FsPath) (cs : List Entry) (p : FsPath)
    (h : p ∈ find_all_pdfs root cs) : root.isPrefixOf p = true := by
  obtain ⟨rel, _, _, rfl⟩ := (mem_find_all_pdfs root cs p).1 h
  rw [ List.isPrefixOf_iff_prefix]
  exact List.prefix_append root rel

theorem mkTasks_eq_map : ∀ (input_dir output_dir : FsPath) (fs : List FsPath),
    (∀ f ∈ fs, input_dir.isPrefixOf f = true) →
    mkTasks input_dir output_dir fs =
      Except.ok (fs.map (fun f => (f, output_dir ++ f.drop input_dir.length)))
  | input_dir, output_dir, [] => by simp [mkTasks]
  | input_dir, output_dir, f :: fs => by
      intro h
      have hf : input_dir.isPrefixOf f = true := h f (List.mem_cons_self f fs)
      have ih := mkTasks_eq_map input_dir output_dir fs
        (fun g hg => h g (List.mem_cons_of_mem f hg))
      simp only [mkTasks, relative_to, hf, if_pos, ih]
      rfl

theorem mkTasks_ok_length (input_dir output_dir : FsPath) :
    ∀ (fs : List FsPath) (ts : List Task),
    mkTasks input_dir output_dir fs = Except.ok ts → ts.length = fs.length
  | [], ts => by
      intro h
      simp only [mkTasks, Except.ok.injEq] at h
      subst h
      rfl
  | f :: fs, ts => by
      simp only [mkTasks]
      match relative_to f input_dir with
      | none => simp
      | some rel =>
          simp only [bind, Except.bind]
          match hm : mkTasks input_dir output_dir fs with
          | Except.error u => simp
          | Except.ok ts' =>
              have ih := mkTasks_ok_length input_dir output_dir fs ts' hm
              simp only [Except.ok.injEq]
              rintro rfl
              simp [ih]

/-! Helper lemmas for the aggregation loop (claims C1, C2, C10) -/

theorem compress_pdf_shape (e : FSEnv) (inp outp : FsPath) (q : String)
    (r : TaskResult) (h : compress_pdf e inp outp q = Except.ok r) :
    (∃ orig comp, r = (true, orig, comp, inp)) ∨ r = (false, 0, 0, inp) := by
  unfold compress_pdf at h
  split at h
  · simp only [Except.ok.injEq] at h
    subst h
    rcases h1 : e.getsize inp with _ | orig
    · simp [h1]
    · by_cases hr : e.run (gs_command q (pathStr outp) (pathStr inp)) = true
      · rcases h2 : e.getsize outp with _ | comp
        · simp [h1, hr, h2]
        · simp only [h1, hr, if_true, h2]
          exact Or.inl ⟨orig, comp, rfl⟩
      · simp [h1, hr]
  · cases h

theorem compress_pdf_ok_of_mkdirOk (e : FSEnv) (inp outp : FsPath) (q : String)
    (hm : e.mkdirOk outp.dropLast = true) :
    ∃ r, compress_pdf e inp outp q = Except.ok r := by
  unfold compress_pdf
  rw [if_pos hm]
  exact ⟨_, rfl⟩

theorem aggStep_shape (e : FSEnv) (q : String) (s : Stats) (t : Task) (s₁ : Stats)
    (h : aggStep e q s t = Except.ok s₁) :
    (∃ orig comp,
        s₁ = { s with success := s.success + 1,
                      original_size := s.original_size + orig,
                      compressed_size := s.compressed_size + comp }) ∨
    s₁ = { s with failed := s.failed + 1, errors := s.errors ++ [t.1] } := by
  simp only [aggStep, bind, Except.bind] at h
  match hc : compress_pdf e t.1 t.2 q with
  | Except.error u => rw [hc] at h; cases h
  | Except.ok r =>
      rw [hc] at h
      rcases compress_pdf_shape e t.1 t.2 q r hc with ⟨orig, comp, rfl⟩ | rfl
      · simp only [Except.ok.injEq] at h
        exact Or.inl ⟨orig, comp, h.symm⟩
      · simp only [Except.ok.injEq] at h
        exact Or.inr h.symm

theorem aggStep_add (e : FSEnv) (q : String) (s0 s : Stats) (t : Task) :
    aggStep e q (addStats s0 s) t = (aggStep e q s t).map (addStats s0) := by
  simp only [aggStep, bind, Except.bind]
  match hc : compress_pdf e t.1 t.2 q with
  | Except.error u => simp [Except.map]
  | Except.ok r =>
      rcases compress_pdf_shape e t.1 t.2 q r hc with ⟨orig, comp, rfl⟩ | rfl <;>
        simp [Except.map, addStats, Nat.add_assoc, List.append_assoc]

theorem aggregate_ok_counts (e : FSEnv) (q : String) : ∀ (ts : List Task) (s s' : Stats),
    aggregate e q s ts = Except.ok s' →
    s'.success + s'.failed = s.success + s.failed + ts.length ∧ s'.total = s.total
  | [], s, s' => by
      intro h
      simp only [aggregate, Except.ok.injEq] at h
      subst h
      exact ⟨rfl, rfl⟩
  | t :: ts, s, s' => by
      simp only [aggregate, bind, Except.bind]
      match hstep : aggStep e q s t with
      | Except.error u => simp
      | Except.ok s₁ =>
          intro h
          have ih := aggregate_ok_counts e q ts s₁ s' h
          rcases aggStep_shape e q s t s₁ hstep with ⟨orig, comp, rfl⟩ | rfl <;>
            · refine ⟨?_, ih.2⟩
              rw [ih.1]
              simp only [List.length_cons]
              omega

theorem aggregate_add (e : FSEnv) (q : String) (s0 : Stats) : ∀ (ts : List Task) (s : Stats),
    aggregate e q (addStats s0 s) ts = (aggregate e q s ts).map (addStats s0)
  | [], s => by simp [aggregate, Except.map]
  | t :: ts, s => by
      simp only [aggregate, bind, Except.bind, aggStep_add e q s0 s t]
      match aggStep e q s t with
      | Except.error u => simp [Except.map]
      | Except.ok s₁ => exact aggregate_add e q s0 ts s₁

theorem aggregate_ok_of_mkdirOk (e : FSEnv) (q : String)
    (hm : ∀ d, e.mkdirOk d = true) : ∀ (ts : List Task) (s : Stats),
    ∃ s', aggregate e q s ts = Except.ok s'
  | [], s => ⟨s, rfl⟩
  | t :: ts, s => by
      simp only [aggregate, bind, Except.bind]
      obtain ⟨r, hr⟩ := compress_pdf_ok_of_mkdirOk e t.1 t.2 q (hm t.2.dropLast)
      have hstep : ∃ s₁, aggStep e q s t = Except.ok s₁ := by
        simp only [aggStep, bind, Except.bind, hr]
        rcases compress_pdf_shape e t.1 t.2 q r hr with ⟨orig, comp, rfl⟩ | rfl
        · exact ⟨_, rfl⟩
        · exact ⟨_, rfl⟩
      obtain ⟨s₁, hs₁⟩ := hstep
      rw [hs₁]
      exact aggregate_ok_of_mkdirOk e q hm ts s₁

theorem process_all_ok_of_mkdirOk (s0 : Stats) (e : FSEnv)
    (reorder : List Task → List Task) (input_dir output_dir : FsPath)
    (tree : List Entry) (q : String) (hm : ∀ d, e.mkdirOk d = true) :
    ∃ s, process_all s0 e reorder input_dir output_dir tree q = Except.ok s := by
  simp only [process_all]
  rw [mkTasks_eq_map input_dir output_dir _
      (fun f hf => find_all_pdfs_under_root input_dir tree f hf)]
  simp only [bind, Except.bind]
  exact aggregate_ok_of_mkdirOk e q hm _ _

/-! Claim theorems -/

/-- C1 (amended).  For every task, any failure of the invocation
itself — input size unreadable, non-zero exit of the external process, or
output size unreadable — is caught inside the `try` block and converted
to the failed result `(false, 0, 0, input_path)`, and when output
directory creation succeeds for every task, no exception propagates past
the Executor boundary (`process_all` returns a `Stats`, never an
exception).  The amendment: the `mkdir` of the output parent directory
runs before the `try` block, so a directory-creation exception does
propagate and abort the batch (see the counterexample). -/
theorem c1_task_failures_swallowed (e : FSEnv) (inp outp : FsPath) (q : String)
    (s0 : Stats) (reorder : List Task → List Task)
    (input_dir output_dir : FsPath) (tree : List Entry) :
    (e.mkdirOk outp.dropLast = true →
      (e.getsize inp = none ∨
        e.run (gs_command q (pathStr outp) (pathStr inp)) = false ∨
        e.getsize outp = none) →
      compress_pdf e inp outp q = Except.ok (false, 0, 0, inp)) ∧
    ((∀ d, e.mkdirOk d = true) →
      ∃ s, process_all s0 e reorder input_dir output_dir tree q = Except.ok s) := by
  constructor
  · intro hm hfail
    unfold compress_pdf
    rw [if_pos hm]
    rcases hfail with h1 | h2 | h3
    · rw [h1]
    · rcases hg : e.getsize inp with _ | orig
      · rfl
      · simp [h2]
    · rcases hg : e.getsize inp with _ | orig
      · rfl
      · by_cases hr : e.run (gs_command q (pathStr outp) (pathStr inp)) = true
        · simp [hr, h3]
        · simp [hr]
  · intro hm
    exact process_all_ok_of_mkdirOk s0 e reorder input_dir output_dir tree q hm

/-- Witness for the amended theorem of C1: in `envAllFail` the tool exits
non-zero for `b/2.pdf`, the adapter reports the failed result, and the
whole batch still completes with a `Stats` value. -/
theorem c1_witness :
    compress_pdf envAllFail ["in", "b", "2.pdf"] ["out", "b", "2.pdf"] "/ebook" =
      Except.ok (false, 0, 0, ["in", "b", "2.pdf"]) ∧
    ∃ s, process_all initStats envAllFail id ["in"] ["out"] treeC "/ebook" =
      Except.ok s :=
  ⟨(c1_task_failures_swallowed envAllFail ["in", "b", "2.pdf"] ["out", "b", "2.pdf"]
      "/ebook" initStats id ["in"] ["out"] treeC).1 rfl (Or.inr (Or.inl rfl)),
   (c1_task_failures_swallowed envAllFail ["in", "b", "2.pdf"] ["out", "b", "2.pdf"]
      "/ebook" initStats id ["in"] ["out"] treeC).2 (fun _ => rfl)⟩

/-- Counterexample to C1 as stated: when creating the output parent
directory raises (here: for every directory), the exception escapes
`compress_pdf` — it is not converted to a failed `Result` — and
`future.result()` re-raises it in `process_all`, aborting the batch. -/
theorem c1_counterexample :
    compress_pdf envBadMkdir ["in", "a", "1.pdf"] ["out", "a", "1.pdf"] "/ebook" =
      Except.error () ∧
    process_all initStats envBadMkdir id ["in"] ["out"] treeC "/ebook" =
      Except.error () := by
  constructor
  · rfl
  · simp only [treeC, process_all, find_all_pdfs, os_walk, walkList, filesOf]
    rfl

/-- C2.  When a batch run from the initial class-level `Stats`
completes (no task exception), `success + failed = total` and `total`
equals the number of files the scanner discovered. -/
theorem c2_stats_invariant (e : FSEnv) (reorder : List Task → List Task)
    (hre : ∀ l : List Task, (reorder l).Perm l)
    (input_dir output_dir : FsPath) (tree : List Entry) (q : String) (s : Stats)
    (h : process_all initStats e reorder input_dir output_dir tree q = Except.ok s) :
    s.success + s.failed = s.total ∧
    s.total = (find_all_pdfs input_dir tree).length := by
  unfold process_all at h
  simp only [bind, Except.bind] at h
  revert h
  match hmk : mkTasks input_dir output_dir (find_all_pdfs input_dir tree) with
  | Except.error u => simp
  | Except.ok ts =>
      intro h
      have hc := aggregate_ok_counts e q (reorder ts) _ s h
      have hlen : (reorder ts).length = ts.length := (hre ts).length_eq
      have hts : ts.length = (find_all_pdfs input_dir tree).length :=
        mkTasks_ok_length input_dir output_dir _ ts hmk
      have htot : s.total = (find_all_pdfs input_dir tree).length := by
        rw [hc.2]
      refine ⟨?_, htot⟩
      rw [hc.1, htot, hlen, hts]
      simp [initStats]

/-- Witness for C2 at the concrete scenario. -/
theorem c2_witness :
    statsC.success + statsC.failed = statsC.total ∧
    statsC.total = (find_all_pdfs ["in"] treeC).length :=
  c2_stats_invariant envC id (fun l => List.Perm.refl l) ["in"] ["out"] treeC
    "/ebook" statsC
    (by simp only [treeC, process_all, find_all_pdfs, os_walk, walkList, filesOf]; rfl)

/-- C3.  A path is returned by the scanner iff it is `root ++ rel`
for some relative path `rel` of a regular file at any depth beneath the
root whose final component passes the case-insensitive `.pdf` suffix
test: the two sets are equal. -/
theorem c3_scanner_set (root : FsPath) (cs : List Entry) (p : FsPath) :
    p ∈ find_all_pdfs root cs ↔
      ∃ rel, rel ∈ specRegularFiles cs ∧ lastPdf rel = true ∧ p = root ++ rel :=
  mem_find_all_pdfs root cs p

/-- C4.  The planner builds exactly one task per discovered file, in
order, and the output path of each task is `output_root` joined with the
path of the file relative to `input_root` (the relative directory structure is
preserved: joining `input_root` back onto the relative part recovers the
input path). -/
theorem c4_planner (input_dir output_dir : FsPath) (tree : List Entry) :
    mkTasks input_dir output_dir (find_all_pdfs input_dir tree) =
      Except.ok ((find_all_pdfs input_dir tree).map
        (fun f => (f, output_dir ++ f.drop input_dir.length))) ∧
    ∀ f ∈ find_all_pdfs input_dir tree,
      input_dir ++ f.drop input_dir.length = f := by
  constructor
  · exact mkTasks_eq_map input_dir output_dir _
      (fun f hf => find_all_pdfs_under_root input_dir tree f hf)
  · intro f hf
    obtain ⟨rel, _, _, rfl⟩ := (mem_find_all_pdfs input_dir tree f).1 hf
    simp

/-- Witness for C4 at the concrete scenario tree. -/
theorem c4_witness :
    ["in"] ++ (["in", "a", "1.pdf"].drop (["in"] : FsPath).length) =
      ["in", "a", "1.pdf"] :=
  (c4_planner ["in"] ["out"] treeC).2 ["in", "a", "1.pdf"]
    (by simp only [treeC, find_all_pdfs, os_walk, walkList, filesOf]; decide)

/-- C5.  When directory creation succeeds, the input size reads as
`orig`, the external process exits with status zero, and the output size
reads as `comp`, the adapter reports
`(success := true, original_size := orig, compressed_size := comp)`. -/
theorem c5_success_result (e : FSEnv) (inp outp : FsPath) (q : String)
    (orig comp : Nat) (h1 : e.mkdirOk outp.dropLast = true)
    (h2 : e.getsize inp = some orig)
    (h3 : e.run (gs_command q (pathStr outp) (pathStr inp)) = true)
    (h4 : e.getsize outp = some comp) :
    compress_pdf e inp outp q = Except.ok (true, orig, comp, inp) := by
  unfold compress_pdf
  rw [if_pos h1]
  simp [h2, h3, h4]

/-- Witness for C5: the successful task of the concrete scenario. -/
theorem c5_witness :
    compress_pdf envC ["in", "a", "1.pdf"] ["out", "a", "1.pdf"] "/ebook" =
      Except.ok (true, 1000, 500, ["in", "a", "1.pdf"]) :=
  c5_success_result envC ["in", "a", "1.pdf"] ["out", "a", "1.pdf"] "/ebook"
    1000 500 rfl rfl (by decide) rfl

/-- C6.  The concrete batch: `a/1.pdf` (1000 bytes) halved, `b/2.pdf`
(2000 bytes) failing.  Final stats `total=2, success=1, failed=1`, size
sums `1000`/`500` (failed tasks contribute nothing), error list exactly
the path of `b/2.pdf`, reported savings `500` bytes = `50`%. -/
theorem c6_concrete_scenario :
    find_all_pdfs ["in"] treeC = [["in", "a", "1.pdf"], ["in", "b", "2.pdf"]] ∧
    process_all initStats envC id ["in"] ["out"] treeC "/ebook" =
      Except.ok statsC ∧
    mkReport statsC =
      { total := 2, success := 1, failed := 1,
        sizesBlock := some (500, 50),
        failuresBlock := some [["in", "b", "2.pdf"]] } := by
  refine ⟨?_, ?_, ?_⟩
  · simp only [treeC, find_all_pdfs, os_walk, walkList, filesOf]
    rfl
  · simp only [treeC, process_all, find_all_pdfs, os_walk, walkList, filesOf]
    rfl
  · simp only [mkReport, statsC, savingsPct]
    norm_num

/-- C7.  The percentage computation is guarded: whenever the
accumulated original size is zero the reported percentage is `0` (no
division is performed), and a batch over an empty input tree completes
with `total = 0`, printing neither the sizes block nor a failure list. -/
theorem c7_division_guard (e : FSEnv) (q : String)
    (reorder : List Task → List Task)
    (hre : ∀ l : List Task, (reorder l).Perm l) (input_dir output_dir : FsPath) :
    (∀ s : Stats, s.original_size = 0 → savingsPct s = 0) ∧
    process_all initStats e reorder input_dir output_dir [] q =
      Except.ok initStats ∧
    mkReport initStats =
      { total := 0, success := 0, failed := 0,
        sizesBlock := none, failuresBlock := none } := by
  refine ⟨fun s h => by simp [savingsPct, h], ?_, rfl⟩
  unfold process_all
  have h0 : find_all_pdfs input_dir ([] : List Entry) = [] := by
    simp [find_all_pdfs, os_walk, walkList, filesOf, joinTriples]
  rw [h0]
  simp only [List.length_nil, mkTasks, bind, Except.bind]
  rw [List.Perm.eq_nil (hre [])]
  rfl

/-- Witness for C7: concrete environment, identity completion order. -/
theorem c7_witness :
    savingsPct initStats = 0 ∧
    process_all initStats envC id ["in"] ["out"] [] "/ebook" =
      Except.ok initStats :=
  ⟨(c7_division_guard envC "/ebook" id (fun l => List.Perm.refl l) ["in"] ["out"]).1
      initStats rfl,
   (c7_division_guard envC "/ebook" id (fun l => List.Perm.refl l) ["in"] ["out"]).2.1⟩

/-- C8 (amended).  The menu choices `1`–`5` map to the profiles
screen, ebook, printer, prepress and default, and every input whose
whitespace-stripped form is none of `1`–`5` (blank input included)
yields the ebook profile.  The amendment: the raw line is stripped with
`.strip()` before the lookup, so an input such as `" 1"` also selects
screen (see the counterexample). -/
theorem c8_quality_menu (s : String) :
    prompt_quality "1" = "/screen" ∧ prompt_quality "2" = "/ebook" ∧
    prompt_quality "3" = "/printer" ∧ prompt_quality "4" = "/prepress" ∧
    prompt_quality "5" = "/default" ∧ prompt_quality "" = "/ebook" ∧
    (pyStrip s.data ≠ "1".data → pyStrip s.data ≠ "2".data →
      pyStrip s.data ≠ "3".data → pyStrip s.data ≠ "4".data →
      pyStrip s.data ≠ "5".data → prompt_quality s = "/ebook") := by
  refine ⟨rfl, rfl, rfl, rfl, rfl, rfl, ?_⟩
  intro h1 h2 h3 h4 h5
  simp [prompt_quality, h1, h2, h3, h4, h5]

/-- Witness for the amended theorem of C8 at the input `"hello"`. -/
theorem c8_witness : prompt_quality "hello" = "/ebook" :=
  (c8_quality_menu "hello").2.2.2.2.2.2
    (by decide) (by decide) (by decide) (by decide) (by decide)

/-- Counterexample to C8 as stated: `" 1"` is an input other than `1`
through `5`, yet it selects the screen profile, not ebook. -/
theorem c8_counterexample :
    (" 1" : String) ≠ "1" ∧ (" 1" : String) ≠ "2" ∧ (" 1" : String) ≠ "3" ∧
    (" 1" : String) ≠ "4" ∧ (" 1" : String) ≠ "5" ∧
    prompt_quality " 1" = "/screen" ∧ prompt_quality " 1" ≠ "/ebook" := by
  refine ⟨?_, ?_, ?_, ?_, ?_, rfl, ?_⟩ <;> decide

/-- C9.  The tool is probed with `gswin64c --version` before any
batch work; if the probe raises `FileNotFoundError` or exits non-zero,
the program terminates fatally — for every tree, environment and
completion order the flow yields the error before scanning or processing
anything. -/
theorem c9_probe_is_fatal (probe : List String → RunOutcome)
    (h : probe gs_probe_command = RunOutcome.notFound ∨
         ∃ msg, probe gs_probe_command = RunOutcome.failed msg)
    (e : FSEnv) (reorder : List Task → List Task)
    (input_root output_root : FsPath) (tree : List Entry) (qraw : String) :
    gs_probe_command = ["gswin64c", "--version"] ∧
    main_flow probe e reorder input_root output_root tree qraw =
      Except.error () := by
  refine ⟨rfl, ?_⟩
  unfold main_flow check_ghostscript
  rcases h with h | ⟨msg, h⟩ <;> rw [h] <;> rfl

/-- Witness for C9: a probe that raises `FileNotFoundError`. -/
theorem c9_witness :
    gs_probe_command = ["gswin64c", "--version"] ∧
    main_flow probeNotFound envC id ["in"] ["out"] treeC "2" =
      Except.error () :=
  c9_probe_is_fatal probeNotFound (Or.inl rfl) envC id ["in"] ["out"] treeC "2"

/-- C10.  The `Stats` accumulator is class-level state that
`process_all` never resets: running a batch on top of any pre-existing
state `s0` yields exactly the fresh-state result with the counters of `s0`,
error list and size sums added back on — only `total` is overwritten. -/
theorem c10_stats_accumulate (s0 : Stats) (e : FSEnv)
    (reorder : List Task → List Task) (input_dir output_dir : FsPath)
    (tree : List Entry) (q : String) :
    process_all s0 e reorder input_dir output_dir tree q =
      (process_all initStats e reorder input_dir output_dir tree q).map
        (addStats s0) := by
  simp only [process_all]
  have h1 : ({ total := (find_all_pdfs input_dir tree).length,
               success := s0.success, failed := s0.failed, errors := s0.errors,
               original_size := s0.original_size,
               compressed_size := s0.compressed_size } : Stats) =
      addStats s0 { total := (find_all_pdfs input_dir tree).length,
                    success := initStats.success, failed := initStats.failed,
                    errors := initStats.errors,
                    original_size := initStats.original_size,
                    compressed_size := initStats.compressed_size } := by
    simp [addStats, initStats]
  simp only [h1]
  cases hts : mkTasks input_dir output_dir (find_all_pdfs input_dir tree) with
  | error u => rfl
  | ok ts => exact aggregate_add e q s0 (reorder ts) _

end PdfComp
